import Mathlib

/-!
Verification of the Montgomery court-case scraping pipeline.

This file gives a shallow embedding of the scraping utilities of the
repository (`app/utils/montgomery_probate_case_scraper.py`,
`app/utils/probate_case_scraper.py`, `app/utils/montgomery_foreclosure_scraper.py`,
`app/utils/montgomery_divorce_scraper.py`, `app/utils/recaptcha.py`),
of the persistence service (`app/services/montgomery_probate_case_service.py`)
and of the scraping endpoint (`app/api/v1/endpoints/montgomery_probate_cases.py`),
and proves or refutes the claims of the specification about them.

Modelling conventions:
* HTML pages are embedded as their parsed structure (tables, rows, cells),
  since the HTML parsing library (BeautifulSoup) is external to the repository.
* Network fetches are `Except Unit` values supplied by an environment: `.error`
  models an exception raised during the HTTP request, `.ok` a response body.
* The relational store is a list of persisted rows plus an append-only log
  list; the unique constraint on `case_number`
  (`models/montgomery_probate_case.py`, `unique=True`) is modelled by the
  insert operation returning an error when the key is already present.
  Database commits of log entries are modelled as succeeding.
* Python strings are Lean `String`; Python `str.split()` (whitespace split
  dropping empties), `str.strip()`, `str.lower()`, the split at the first comma and the
  `in` substring test are modelled by the helpers below.
-/

namespace MontgomeryScraper

/- The Python string primitives are modelled by structural recursion over
the character list of the string (the recursion of the core `String`
recursion is not definitionally reducible, which would hinder concrete
evaluation inside proofs). -/

/-- Drop leading whitespace characters. -/
def dropWs : List Char → List Char
  | [] => []
  | c :: cs => if c.isWhitespace then dropWs cs else c :: cs

/-- Is `p` a character-wise head of `s`? -/
def litAtHead : List Char → List Char → Bool
  | [], _ => true
  | _ :: _, [] => false
  | p :: ps, c :: cs => p == c && litAtHead ps cs

/-- Python `s.strip()`. -/
def pyStrip (s : String) : String :=
  String.mk (dropWs (dropWs s.data.reverse).reverse)

/-- Python `s.lower()` (the labels involved are ASCII). -/
def pyLower (s : String) : String := String.mk (s.data.map Char.toLower)

/-- Helper for `pySplitWs`: split a character list on whitespace runs. -/
def wordsAux : List Char → List Char → List (List Char)
  | [], acc => if acc.isEmpty then [] else [acc.reverse]
  | c :: cs, acc =>
      if c.isWhitespace then
        if acc.isEmpty then wordsAux cs [] else acc.reverse :: wordsAux cs []
      else wordsAux cs (c :: acc)

/-- Python `s.split()`: split on whitespace, dropping empty fragments. -/
def pySplitWs (s : String) : List String := (wordsAux s.data []).map String.mk

def joinSpace : List (List Char) → List Char
  | [] => []
  | [w] => w
  | w :: ws => w ++ ' ' :: joinSpace ws

/-- Python space-join of `ws`. -/
def joinSpaceStr (ws : List String) : String :=
  String.mk (joinSpace (ws.map String.data))

/-- Python space-join of the whitespace split: normalisation used on the
fiduciary address text. -/
def pyNormalizeWs (s : String) : String := joinSpaceStr (pySplitWs s)

/-- Split a character list at the first comma. -/
def breakComma : List Char → Option (List Char × List Char)
  | [] => none
  | c :: cs =>
      if c == ',' then some ([], cs)
      else
        match breakComma cs with
        | some r => some (c :: r.1, r.2)
        | none => none

/-- Python two-argument split: split at the first comma only. -/
def splitFirstComma (s : String) : List String :=
  match breakComma s.data with
  | some r => [String.mk r.1, String.mk r.2]
  | none => [s]

/-- Does `pat` occur in `s` at some position? -/
def chContains : List Char → List Char → Bool
  | [], pat => pat.isEmpty
  | c :: cs, pat => litAtHead pat (c :: cs) || chContains cs pat

/-- Python `pat in s` substring test. -/
def containsSub (s pat : String) : Bool := chContains s.data pat.data

/-- Helper for `dictFromKeys`: keep elements not seen before, scanning left
to right. -/
def dedupSeen (seen : List String) : List String → List String
  | [] => []
  | x :: xs => if x ∈ seen then dedupSeen seen xs else x :: dedupSeen (x :: seen) xs

/-- Python `list(dict.fromkeys(l))`: remove duplicates preserving first-seen
order (`get_case_list`, line 101 of `montgomery_probate_case_scraper.py` and
line 97 of `probate_case_scraper.py`). -/
def dictFromKeys (l : List String) : List String := dedupSeen [] l

theorem dedupSeen_mem (seen : List String) (l : List String) (x : String) :
    x ∈ dedupSeen seen l ↔ x ∈ l ∧ x ∉ seen := by
  induction l generalizing seen with
  | nil => simp [dedupSeen]
  | cons y ys ih =>
    by_cases hy : y ∈ seen
    · rw [show dedupSeen seen (y :: ys) = dedupSeen seen ys by
        simp only [dedupSeen, if_pos hy], ih]
      constructor
      · rintro ⟨hx, hns⟩
        exact ⟨List.mem_cons_of_mem _ hx, hns⟩
      · rintro ⟨hx, hns⟩
        rcases List.mem_cons.mp hx with rfl | hx
        · exact absurd hy hns
        · exact ⟨hx, hns⟩
    · rw [show dedupSeen seen (y :: ys) = y :: dedupSeen (y :: seen) ys by
        simp only [dedupSeen, if_neg hy]]
      constructor
      · intro hmem
        rcases List.mem_cons.mp hmem with rfl | hmem
        · exact ⟨List.mem_cons_self _ _, hy⟩
        · rcases (ih (y :: seen)).mp hmem with ⟨hx, hns⟩
          exact ⟨List.mem_cons_of_mem _ hx,
                 fun hs => hns (List.mem_cons_of_mem _ hs)⟩
      · rintro ⟨hx, hns⟩
        rcases List.mem_cons.mp hx with rfl | hx
        · exact List.mem_cons_self _ _
        · by_cases hxy : x = y
          · subst hxy; exact List.mem_cons_self _ _
          · refine List.mem_cons_of_mem _ ((ih (y :: seen)).mpr ⟨hx, ?_⟩)
            intro hs
            rcases List.mem_cons.mp hs with h | h
            · exact hxy h
            · exact hns h

theorem dedupSeen_nodup (seen : List String) (l : List String) :
    (dedupSeen seen l).Nodup := by
  induction l generalizing seen with
  | nil => simp [dedupSeen]
  | cons y ys ih =>
    by_cases hy : y ∈ seen
    · rw [show dedupSeen seen (y :: ys) = dedupSeen seen ys by
        simp only [dedupSeen, if_pos hy]]
      exact ih seen
    · rw [show dedupSeen seen (y :: ys) = y :: dedupSeen (y :: seen) ys by
        simp only [dedupSeen, if_neg hy]]
      refine List.nodup_cons.mpr ⟨?_, ih (y :: seen)⟩
      intro hmem
      exact ((dedupSeen_mem (y :: seen) ys y).mp hmem).2 (List.mem_cons_self _ _)

theorem dedupSeen_sublist (seen : List String) (l : List String) :
    (dedupSeen seen l).Sublist l := by
  induction l generalizing seen with
  | nil => simp [dedupSeen]
  | cons y ys ih =>
    by_cases hy : y ∈ seen
    · simpa [dedupSeen, if_pos hy] using (ih seen).cons y
    · simpa [dedupSeen, if_neg hy] using (ih (y :: seen)).cons₂ y

theorem dedupSeen_congr (seen₁ seen₂ : List String) (l : List String)
    (h : ∀ x, x ∈ seen₁ ↔ x ∈ seen₂) :
    dedupSeen seen₁ l = dedupSeen seen₂ l := by
  induction l generalizing seen₁ seen₂ with
  | nil => rfl
  | cons y ys ih =>
    by_cases hy : y ∈ seen₁
    · rw [dedupSeen, dedupSeen, if_pos hy, if_pos ((h y).mp hy), ih seen₁ seen₂ h]
    · have hy₂ : y ∉ seen₂ := fun hc => hy ((h y).mpr hc)
      rw [dedupSeen, dedupSeen, if_neg hy, if_neg hy₂]
      have : ∀ x, x ∈ y :: seen₁ ↔ x ∈ y :: seen₂ := by
        intro x; simp [List.mem_cons, h x]
      rw [ih _ _ this]

theorem dedupSeen_filter (a : String) (seen : List String) (l : List String) :
    dedupSeen (a :: seen) l = dedupSeen seen (l.filter (fun y => y ≠ a)) := by
  induction l generalizing seen with
  | nil => rfl
  | cons y ys ih =>
    by_cases hya : y = a
    · subst hya
      rw [show dedupSeen (y :: seen) (y :: ys) = dedupSeen (y :: seen) ys by
        simp only [dedupSeen, if_pos (List.mem_cons_self y seen)]]
      rw [List.filter_cons, if_neg (by simp)]
      exact ih seen
    · rw [List.filter_cons, if_pos (by simp [hya])]
      by_cases hy : y ∈ seen
      · have hy' : y ∈ a :: seen := List.mem_cons_of_mem _ hy
        rw [show dedupSeen (a :: seen) (y :: ys) = dedupSeen (a :: seen) ys by
          simp only [dedupSeen, if_pos hy']]
        rw [show dedupSeen seen (y :: ys.filter (fun b => b ≠ a))
              = dedupSeen seen (ys.filter (fun b => b ≠ a)) by
          simp only [dedupSeen, if_pos hy]]
        exact ih seen
      · have hy' : y ∉ a :: seen := by
          intro hc
          rcases List.mem_cons.mp hc with h | h
          · exact hya h
          · exact hy h
        rw [show dedupSeen (a :: seen) (y :: ys)
              = y :: dedupSeen (y :: a :: seen) ys by
          simp only [dedupSeen, if_neg hy']]
        rw [show dedupSeen seen (y :: ys.filter (fun b => b ≠ a))
              = y :: dedupSeen (y :: seen) (ys.filter (fun b => b ≠ a)) by
          simp only [dedupSeen, if_neg hy]]
        have h1 : dedupSeen (y :: a :: seen) ys = dedupSeen (a :: y :: seen) ys :=
          dedupSeen_congr _ _ _ (by
            intro x
            constructor <;> intro h <;>
              rcases List.mem_cons.mp h with h' | h'
            · exact List.mem_cons_of_mem _ (h' ▸ List.mem_cons_self _ _)
            · rcases List.mem_cons.mp h' with h'' | h''
              · exact h'' ▸ List.mem_cons_self _ _
              · exact List.mem_cons_of_mem _ (List.mem_cons_of_mem _ h'')
            · exact List.mem_cons_of_mem _ (h' ▸ List.mem_cons_self _ _)
            · rcases List.mem_cons.mp h' with h'' | h''
              · exact h'' ▸ List.mem_cons_self _ _
              · exact List.mem_cons_of_mem _ (List.mem_cons_of_mem _ h''))
        rw [h1, ih (y :: seen)]

/-- First-seen characterisation: the first element of the input heads the
output, and later occurrences of it are discarded before deduplicating the
rest. -/
theorem dictFromKeys_cons (x : String) (xs : List String) :
    dictFromKeys (x :: xs) = x :: dictFromKeys (xs.filter (fun y => y ≠ x)) := by
  unfold dictFromKeys
  rw [show dedupSeen [] (x :: xs) = x :: dedupSeen [x] xs by
    simp only [dedupSeen, if_neg (List.not_mem_nil x)]]
  exact congrArg _ (dedupSeen_filter x [] xs)

theorem dictFromKeys_nodup (l : List String) : (dictFromKeys l).Nodup :=
  dedupSeen_nodup [] l

theorem dictFromKeys_mem (l : List String) (x : String) :
    x ∈ dictFromKeys l ↔ x ∈ l := by
  simpa using dedupSeen_mem [] l x

theorem dictFromKeys_sublist (l : List String) :
    (dictFromKeys l).Sublist l :=
  dedupSeen_sublist [] l

/-! ## Detail-page model and `get_case_details`
(`montgomery_probate_case_scraper.py` lines 111-279; `probate_case_scraper.py`
lines 107-275 is textually identical code)

A cell carries the results of the accessors of the external HTML library:
`text` is `get_text(strip=True)`; `fidName` is the group of the regex
match of the name-before-br regex on the raw HTML of the cell (used only
on fiduciary cells); `brTail` is the sibling text following the first br
tag (`none` when there is no br tag or no following sibling). -/

structure Cell where
  text : String
  fidName : Option String := none
  brTail : Option String := none
deriving DecidableEq

/-- The detail record assembled by `get_case_details` (its `details` dict,
lines 121-133): fields not found on the page stay empty. -/
structure CaseDetails where
  decedent_name : String := ""
  filing_date : String := ""
  case_number : String := ""
  source_url : String := ""
  county : String := ""
  case_status : String := ""
  property_address : String := ""
  fiduciary_name : String := ""
  fiduciary_address : String := ""
  fiduciary_city : String := ""
  fiduciary_zip : String := ""
deriving DecidableEq

def isLeapYear (y : Nat) : Bool :=
  (y % 4 == 0 && y % 100 != 0) || (y % 400 == 0)

def daysInMonth (y m : Nat) : Nat :=
  if m == 2 then (if isLeapYear y then 29 else 28)
  else if m == 4 || m == 6 || m == 9 || m == 11 then 30
  else 31

/-- Python split on dash characters (empty fragments preserved). -/
def splitDash : List Char → List (List Char)
  | [] => [[]]
  | c :: cs =>
      if c == '-' then [] :: splitDash cs
      else
        match splitDash cs with
        | w :: ws => (c :: w) :: ws
        | [] => [[c]]

def digitsToNat (l : List Char) : Nat :=
  l.foldl (fun n c => n * 10 + (c.toNat - 48)) 0

def allDigits (w : List Char) : Bool := !w.isEmpty && w.all Char.isDigit

/-- Model of `datetime.strptime(s, %m-%d-%Y)`: two dash-separated numeric
fields of at most two digits and a four-digit year, checked against the
Gregorian calendar; `none` models the `ValueError` branch. -/
def parseMDY (s : String) : Option (Nat × Nat × Nat) :=
  match splitDash s.data with
  | [ms, ds, ys] =>
    if allDigits ms && allDigits ds && allDigits ys
        && ms.length ≤ 2 && ds.length ≤ 2 && ys.length == 4 then
      let m := digitsToNat ms
      let d := digitsToNat ds
      let y := digitsToNat ys
      if 1 ≤ m && m ≤ 12 && 1 ≤ d && d ≤ daysInMonth y m then
        some (m, d, y)
      else none
    else none
  | _ => none

def natDigitsAux : Nat → Nat → List Char
  | 0, _ => []
  | fuel + 1, n =>
      if n < 10 then [Char.ofNat (48 + n)]
      else natDigitsAux fuel (n / 10) ++ [Char.ofNat (48 + n % 10)]

def natToChars (n : Nat) : List Char := natDigitsAux (n + 1) n

def pad2 (n : Nat) : List Char :=
  if n < 10 then '0' :: natToChars n else natToChars n

def pad4 (n : Nat) : List Char :=
  if n < 10 then '0' :: '0' :: '0' :: natToChars n
  else if n < 100 then '0' :: '0' :: natToChars n
  else if n < 1000 then '0' :: natToChars n
  else natToChars n

/-- Models `date_obj.strftime(%Y-%m-%d)`. -/
def formatYMD (y m d : Nat) : String :=
  String.mk (pad4 y ++ '-' :: pad2 m ++ '-' :: pad2 d)

/-- Lines 162-187: the `"case status"` branch. The status token is stored
regardless of its value; the remaining tokens are parsed as a `MM-DD-YYYY`
filing date when possible. -/
def applyCaseStatus (value : String) (d : CaseDetails) : CaseDetails :=
  match pySplitWs value with
  | s :: r :: rest =>
      let status := pyStrip s
      let dateStr := pyStrip (joinSpaceStr (r :: rest))
      let d := { d with case_status := status }
      match parseMDY dateStr with
      | some (m, dd, y) => { d with filing_date := formatYMD y m dd }
      | none => d
  | _ => { d with case_status := pyStrip value }

/-- The state-locating loop of lines 229-234: index of the first token
equal to `"OH"` (`state_index`, `none` for `-1`). -/
def findIdxOH : List String → Option Nat
  | [] => none
  | p :: ps => if p == "OH" then some 0 else (findIdxOH ps).map (· + 1)

/-- Lines 226-246: extract (city, zip) from the whitespace-split
city/state/zip segment. `none` models the branches that overwrite the
street field with the full address instead. The Python `parts[state_index - 1]`
at `state_index = 0` is `parts[-1]`, the last token. -/
def parseCityStateZip (parts : List String) : Option (String × String) :=
  if parts.length ≥ 2 then
    match findIdxOH parts with
    | some i =>
        some (pyStrip (if i = 0 then (parts.getLast?.getD "")
               else ((parts.get? (i - 1)).getD "")),
              pyStrip (parts.getLast?.getD ""))
    | none =>
        if parts.length ≥ 3 then
          some (pyStrip ((parts.get? (parts.length - 3)).getD ""),
                pyStrip (parts.getLast?.getD ""))
        else none
  else none

/-- Lines 212-258 as a function of the whitespace-normalised address text:
returns (street, city, zip), with city and zip empty on the fallback paths
that store the entire string in the street field. -/
def parseFiduciaryAddress (full_address : String) : String × String × String :=
  match splitFirstComma full_address with
  | [street, csz] =>
      match parseCityStateZip (pySplitWs (pyStrip csz)) with
      | some (city, z) => (pyStrip street, city, z)
      | none => (full_address, "", "")
  | _ => (full_address, "", "")

/-- Lines 194-265: the `"fiduciary"` branch. -/
def applyFiduciary (c : Cell) (d : CaseDetails) : CaseDetails :=
  let d := match c.fidName with
           | some nm => { d with fiduciary_name := pyStrip nm }
           | none => d
  match c.brTail with
  | none => d
  | some t =>
      if t == "" then d
      else
        let full_address := pyNormalizeWs t
        match splitFirstComma full_address with
        | [street, csz] =>
            match parseCityStateZip (pySplitWs (pyStrip csz)) with
            | some (city, z) =>
                { d with fiduciary_address := pyStrip street,
                         fiduciary_city := city, fiduciary_zip := z }
            | none => { d with fiduciary_address := full_address }
        | _ => { d with fiduciary_address := full_address }

def apos : String := String.singleton (Char.ofNat 39)

def decedentsNameLabel : String := "decedent" ++ apos ++ "s name"

/-- Lines 144-265: one table row. Rows with fewer than two cells are
skipped; the lowercased text of the first cell is matched against the label
synonyms by substring, the second cell supplies the value. -/
def processRow (d : CaseDetails) (row : List Cell) : CaseDetails :=
  match row with
  | c0 :: c1 :: _ =>
      let label := pyLower c0.text
      if containsSub label decedentsNameLabel then
        { d with decedent_name := c1.text }
      else if containsSub label "case number" then
        { d with case_number := c1.text }
      else if containsSub label "case status" then
        applyCaseStatus c1.text d
      else if containsSub label "property address" then
        { d with property_address := c1.text }
      else if containsSub label "fiduciary" then
        applyFiduciary c1 d
      else d
  | _ => d

def initDetails (case_url : String) : CaseDetails :=
  { decedent_name := "", filing_date := "", case_number := "",
    source_url := case_url, county := "Montgomery County, Ohio",
    case_status := "", property_address := "", fiduciary_name := "",
    fiduciary_address := "", fiduciary_city := "", fiduciary_zip := "" }

/-- Line 268: the required-field check. The exempt fields are `county`,
`case_status`, `property_address` and the four fiduciary fields, so only
`decedent_name`, `filing_date`, `case_number` and `source_url` must be
non-empty. -/
def requiredFieldsPresent (d : CaseDetails) : Bool :=
  d.decedent_name ≠ "" && d.filing_date ≠ "" && d.case_number ≠ ""
    && d.source_url ≠ ""

/-- Function `get_case_details` (lines 111-279): `none` models the `return \x7b\x7d`
branches (fetch/parse exception, page without tables, missing required
field). -/
def get_case_details (fetch : Except Unit (List (List (List Cell))))
    (case_url : String) : Option CaseDetails :=
  match fetch with
  | .error _ => none
  | .ok tables =>
      if tables.isEmpty then none
      else
        let d := tables.foldl (fun d t => t.foldl processRow d)
                   (initDetails case_url)
        if requiredFieldsPresent d then some d else none

/-! ## Persistence model

Rows of `montgomery_probate_cases` (`models/montgomery_probate_case.py`):
the uuid surrogate key and the `created_at` server default are modelled as
counters drawn from the database state at insertion time; the
`unique=True` constraint on `case_number` is modelled by the insert
operation failing when the key is already present. -/

structure LogEntry where
  source : String
  total_records : Nat
  success_status : Bool
  error_message : String
deriving DecidableEq

structure PersistedCase where
  id : Nat
  created_at : Nat
  data : CaseDetails
deriving DecidableEq

structure DBState where
  cases : List PersistedCase
  logs : List LogEntry
  nextId : Nat
  clock : Nat
deriving DecidableEq

def addLog (st : DBState) (e : LogEntry) : DBState :=
  { st with logs := st.logs ++ [e] }

def insertCase (st : DBState) (d : CaseDetails) : DBState :=
  { st with cases := st.cases ++ [⟨st.nextId, st.clock, d⟩],
            nextId := st.nextId + 1, clock := st.clock + 1 }

def hasCaseNumber (cases : List PersistedCase) (cn : String) : Bool :=
  cases.any (fun c => c.data.case_number == cn)

/-- Method `MontgomeryProbateCaseScraper.save_case_to_db` (lines 281-305): builds a
fresh row and commits, with no existence check; the unique constraint makes
the commit raise when the case_number exists (`.error`, re-raised to the
caller after rollback). -/
def save_case_to_db (st : DBState) (d : CaseDetails) : Except String DBState :=
  if hasCaseNumber st.cases d.case_number then
    .error "UNIQUE constraint failed: montgomery_probate_cases.case_number"
  else .ok (insertCase st d)

/-! ## Identifier discovery -/

/-- The value `get_case_list` actually returns: a list of urls on the
normal path, the empty dict `\x7b\x7d` on the exception path (lines
106-109), despite the declared `List[str]`. -/
inductive CaseListResult where
  | ok (urls : List String)
  | emptyDict
deriving DecidableEq

/-- The Python truthiness test `if not urls` applied by the callers. -/
def CaseListResult.falsy : CaseListResult → Bool
  | .ok urls => urls.isEmpty
  | .emptyDict => true

def resultUrlFragment : String := "casesearchresultx.cfm"

/-- Lines 89-101: keep hrefs containing `casesearchresultx.cfm`, resolve
them to absolute urls (the resolution function models `get_full_url`,
whose `urljoin` is external), then de-duplicate preserving first-seen
order. Identical code in `probate_case_scraper.py` lines 89-101. -/
def extractCaseUrls (fullUrl : String → String) (links : List String) :
    List String :=
  dictFromKeys ((links.filter (fun h => containsSub h resultUrlFragment)).map fullUrl)

/-- Function `get_case_list` (lines 68-109): any exception during the fetch or
parse is caught and the empty dict is returned. -/
def get_case_list (fullUrl : String → String)
    (searchLinks : Except Unit (List String)) : CaseListResult :=
  match searchLinks with
  | .error _ => .emptyDict
  | .ok links => .ok (extractCaseUrls fullUrl links)

/-! ## Coordinator (`scrape_all_case_details`, `scrape_all_cases`) -/

/-- The fetch environment of one run: outcome of the search fetch and of
each detail-page fetch. -/
structure ScrapeEnv where
  fullUrl : String → String
  searchLinks : Except Unit (List String)
  detail : String → Except Unit (List (List (List Cell)))

def captchaLog : LogEntry :=
  ⟨"Montgomery Probate", 0, false, "CAPTCHA block"⟩

/-- The save loop of `scrape_all_case_details` (lines 417-421): empty
results are skipped, non-empty ones saved in order; a save exception
propagates to the outer handler (committed rows remain). Returns the
state, the count saved and the exception message, if any. -/
def saveResults (st : DBState) (total : Nat) :
    List (Option CaseDetails) → DBState × Nat × Option String
  | [] => (st, total, none)
  | none :: rest => saveResults st total rest
  | some d :: rest =>
      match save_case_to_db st d with
      | .ok st' => saveResults st' (total + 1) rest
      | .error e => (st, total, some e)

/-- Function `scrape_all_case_details` (lines 376-473). Log-entry commits are
modelled as succeeding. Batching (size 5, pause between batches) does not
change which records are fetched nor the save order, so batches are
flattened. -/
def scrape_all_case_details (env : ScrapeEnv) (st : DBState) : DBState :=
  match get_case_list env.fullUrl env.searchLinks with
  | .emptyDict => addLog st captchaLog
  | .ok urls =>
      if urls.isEmpty then addLog st captchaLog
      else
        let results := urls.map (fun u => get_case_details (env.detail u) u)
        match saveResults st 0 results with
        | (st', n, none) => addLog st' ⟨"Montgomery Probate", n, true, ""⟩
        | (st', _, some e) => addLog st' ⟨"Montgomery Probate", 0, false, e⟩

/-- Function `scrape_all_cases` (lines 516-582): returns the extracted records and
appends one log entry (Pydantic validation of each record and log commits
modelled as succeeding). -/
def scrape_all_cases (env : ScrapeEnv) (st : DBState) :
    List CaseDetails × DBState :=
  match get_case_list env.fullUrl env.searchLinks with
  | .emptyDict => ([], addLog st captchaLog)
  | .ok urls =>
      if urls.isEmpty then ([], addLog st captchaLog)
      else
        let recs := urls.filterMap (fun u => get_case_details (env.detail u) u)
        (recs, addLog st ⟨"Montgomery Probate", recs.length, true, ""⟩)

/-! ## Service and endpoint (`montgomery_probate_case_service.py`,
`endpoints/montgomery_probate_cases.py`) -/

/-- Method `MontgomeryProbateCaseService.case_exists` (lines 100-110). -/
def case_exists (st : DBState) (cn : String) : Bool :=
  hasCaseNumber st.cases cn

/-- Method `create_probate_case` (lines 11-37): fresh surrogate id, insert. -/
def create_probate_case (st : DBState) (c : CaseDetails) : DBState :=
  insertCase st c

/-- Overwrite the first row matching the case_number of the record with
the record fields (the `setattr` loop, lines 57-58); `id` and `created_at`
are not fields of `MontgomeryProbateCaseCreate` and are not written. -/
def updateFirst : List PersistedCase → CaseDetails → List PersistedCase
  | [], _ => []
  | r :: rs, c =>
      if r.data.case_number == c.case_number then { r with data := c } :: rs
      else r :: updateFirst rs c

/-- Method `update_probate_case` (lines 39-71): `.first()` lookup by case_number,
`ValueError` when absent. -/
def update_probate_case (st : DBState) (c : CaseDetails) :
    Except String DBState :=
  if hasCaseNumber st.cases c.case_number then
    .ok { st with cases := updateFirst st.cases c }
  else .error ("Case not found: " ++ c.case_number)

/-- The per-case loop of the endpoint `scrape_probate_cases` (lines 55-71):
existence check by case_number, then create or update. Returns the state
and the (new, updated) counts; in the model the database operations
succeed, so the skipped count stays zero. -/
def processCases (st : DBState) : List CaseDetails → DBState × Nat × Nat
  | [] => (st, 0, 0)
  | c :: cs =>
      if case_exists st c.case_number then
        let st' := match update_probate_case st c with
                   | .ok s => s
                   | .error _ => st
        let r := processCases st' cs
        (r.1, r.2.1, r.2.2 + 1)
      else
        let r := processCases (create_probate_case st c) cs
        (r.1, r.2.1 + 1, r.2.2)

/-- Endpoint `scrape_probate_cases` (lines 35-89): the full pipeline —
scrape, then create-or-update each record keyed by case_number. -/
def scrape_probate_cases (env : ScrapeEnv) (st : DBState) :
    DBState × Nat × Nat :=
  let (recs, st') := scrape_all_cases env st
  processCases st' recs

/-! ## Divorce coordinator (`montgomery_divorce_scraper.py`) -/

/-- A scraped divorce record; only its presence matters to the audit-log
claims. -/
structure DivorceRecord where
  case_id : String
deriving DecidableEq

/-- Environment of one divorce run: table-verification outcome, token
returned by `get_recaptcha_token` ("" on failure), and the output of
`scrape_case_ids` (which returns `[]` on any failure). -/
structure DivorceEnv where
  tableOk : Bool
  token : String
  scrapedCases : List DivorceRecord
deriving DecidableEq

/-- Divorce `save_to_database` (lines 292-384): empty data writes one
"No data" entry; otherwise all rows are inserted and one success entry is
written (inserts and log commits modelled as succeeding). Only the log
list is tracked. -/
def dv_save_to_database (data : List DivorceRecord) (logs : List LogEntry) :
    List LogEntry :=
  if data.isEmpty then
    logs ++ [⟨"Montgomery Divorce", 0, false, "No data"⟩]
  else
    logs ++ [⟨"Montgomery Divorce", data.length, true, ""⟩]

/-- Divorce `run_scraper` (lines 423-458): early `return` — with no log
write — when table verification fails, when the token is empty, or when
no cases were discovered. -/
def run_scraper (env : DivorceEnv) (logs : List LogEntry) : List LogEntry :=
  if !env.tableOk then logs
  else if env.token == "" then logs
  else if env.scrapedCases.isEmpty then logs
  else dv_save_to_database env.scrapedCases logs

/-! ## CAPTCHA token acquisition (`recaptcha.py`) -/

inductive PollStatus where
  | pending
  | ready (tok : String)
  | failed
deriving DecidableEq

/-- The poll loop of `get_recaptcha_token` (lines 39-64): `fuel` is the
remaining attempt budget (initially 10), `attempt` the 1-based index of
the next poll. Returns the token (or "" on failure) and the number of
polls performed. A request exception (`.error`) is caught by the outer
handler and yields "". -/
def pollLoop (poll : Nat → Except Unit PollStatus) :
    Nat → Nat → String × Nat
  | 0, _ => ("", 0)
  | fuel + 1, attempt =>
      match poll attempt with
      | .error _ => ("", 1)
      | .ok (.ready tok) => (tok, 1)
      | .ok .failed => ("", 1)
      | .ok .pending =>
          let r := pollLoop poll fuel (attempt + 1)
          (r.1, r.2 + 1)

def max_attempts : Nat := 10

/-- Function `get_recaptcha_token` (lines 8-74): create a solver task, then poll
with a hard attempt ceiling. -/
def get_recaptcha_token (createTask : Except Unit (Option Nat))
    (poll : Nat → Except Unit PollStatus) : String :=
  match createTask with
  | .error _ => ""
  | .ok none => ""
  | .ok (some _) => (pollLoop poll max_attempts 1).1

/-! ## Foreclosure identifier extraction
(`montgomery_foreclosure_scraper.py` lines 124-176) -/

def takeDigits : List Char → List Char × List Char
  | [] => ([], [])
  | c :: cs =>
      if c.isDigit then
        let r := takeDigits cs
        (c :: r.1, r.2)
      else ([], c :: cs)

def caseIdLit : List Char := "case_id".data

/-- Match `case_id\s*=\s*(\d+)` at the head of `s`, returning the digit
group. -/
def matchCaseIdHere (s : List Char) : Option String :=
  if litAtHead caseIdLit s then
    match dropWs (s.drop caseIdLit.length) with
    | '=' :: rest =>
        let ds := (takeDigits (dropWs rest)).1
        if ds.isEmpty then none else some (String.mk ds)
    | _ => none
  else none

/-- Models the regex search for the case id pattern: first match position wins. -/
def searchCaseId : List Char → Option String
  | [] => none
  | c :: cs =>
      match matchCaseIdHere (c :: cs) with
      | some r => some r
      | none => searchCaseId cs

/-- One parsed row of the foreclosure results page: whether it has a td
whose string is exactly `OPEN` (resp. `REOPENED`), and its `onclick`
attribute (empty-string default). -/
structure FRow where
  hasOpenCell : Bool
  hasReopenedCell : Bool
  onclick : String
deriving DecidableEq

/-- Function `scrape_case_ids` (lines 124-176), given the parsed rows: append the
case id of every OPEN/REOPENED row whose onclick matches the pattern.
No de-duplication is performed. -/
def scrape_case_ids (rows : List FRow) : List String :=
  rows.filterMap (fun r =>
    if r.hasOpenCell || r.hasReopenedCell then searchCaseId r.onclick.data
    else none)

/-! ## Helper lemmas -/

def caseKeys (cases : List PersistedCase) : List String :=
  cases.map (fun c => c.data.case_number)

theorem hasCaseNumber_iff (cases : List PersistedCase) (cn : String) :
    hasCaseNumber cases cn = true ↔ cn ∈ caseKeys cases := by
  simp only [hasCaseNumber, List.any_eq_true, beq_iff_eq, caseKeys, List.mem_map]

theorem insertCase_logs (st : DBState) (d : CaseDetails) :
    (insertCase st d).logs = st.logs := rfl

theorem saveResults_fst_logs (st : DBState) (total : Nat)
    (results : List (Option CaseDetails)) :
    (saveResults st total results).1.logs = st.logs := by
  induction results generalizing st total with
  | nil => rfl
  | cons r rest ih =>
    cases r with
    | none => exact ih st total
    | some d =>
      by_cases hc : hasCaseNumber st.cases d.case_number = true
      · simp [saveResults, save_case_to_db, hc]
      · simp only [saveResults, save_case_to_db, if_neg hc]
        rw [ih (insertCase st d) (total + 1)]
        rfl

def stEmpty : DBState := ⟨[], [], 0, 0⟩

/-! ## Claim C2 -/

def closedStatusPage : List (List (List Cell)) :=
  [[[⟨"Decedent" ++ apos ++ "s Name:", none, none⟩, ⟨"JOHN DOE", none, none⟩],
    [⟨"Case Number:", none, none⟩, ⟨"2025 EST 00001", none, none⟩],
    [⟨"Case Status:", none, none⟩, ⟨"CLOSED 01-15-2025", none, none⟩]]]

def closedRec : CaseDetails :=
  { decedent_name := "JOHN DOE", filing_date := "2025-01-15",
    case_number := "2025 EST 00001", source_url := "http://probate/case1",
    county := "Montgomery County, Ohio", case_status := "CLOSED",
    property_address := "", fiduciary_name := "", fiduciary_address := "",
    fiduciary_city := "", fiduciary_zip := "" }

/-- C2, counterexample: on a detail page whose status token is `CLOSED` —
recognized (split succeeds) but outside \x7bOPEN, REOPEN, REOPENED\x7d —
`get_case_details` returns the full record instead of empty, and
`save_case_to_db` persists it. -/
theorem C2_counterexample :
    get_case_details (.ok closedStatusPage) "http://probate/case1" = some closedRec
    ∧ closedRec.case_status = "CLOSED"
    ∧ ¬("CLOSED" = "OPEN" ∨ "CLOSED" = "REOPEN" ∨ "CLOSED" = "REOPENED")
    ∧ save_case_to_db stEmpty closedRec = .ok ⟨[⟨0, 0, closedRec⟩], [], 1, 1⟩ := by
  refine ⟨by decide, rfl, by decide, rfl⟩

/-- C2, amended: the Montgomery extractor stores the status token whatever
its value (the first whitespace token, or the whole stripped cell text when
the split yields fewer than two tokens) and never discards a record because
of its status: the required-field check is independent of the
`case_status` field. Status filtering exists only in
`ProbateCaseScraper.save_case_to_db`, not in the Montgomery scraper. -/
theorem C2_amended_status_not_filtered :
    (∀ (d : CaseDetails) (s : String),
        requiredFieldsPresent { d with case_status := s }
          = requiredFieldsPresent d)
    ∧ (∀ (value : String) (d : CaseDetails),
        (applyCaseStatus value d).case_status
          = match pySplitWs value with
            | t :: _ :: _ => pyStrip t
            | _ => pyStrip value) := by
  constructor
  · intro d s
    rfl
  · intro value d
    unfold applyCaseStatus
    rcases hsp : pySplitWs value with _ | ⟨t, _ | ⟨r, rest⟩⟩
    · rfl
    · rfl
    · rcases hmd : parseMDY (pyStrip (joinSpaceStr (r :: rest))) with _ | ⟨m, dd, y⟩
      · simp only [hmd]
      · simp only [hmd]

/-! ## Claim C4 -/

/-- C4: whenever discovery yields a falsy case list (CAPTCHA block),
`scrape_all_case_details` appends exactly one audit entry with
`total_records = 0`, `success_status = false`,
`error_message = "CAPTCHA block"`, leaves the cases table untouched, and
returns normally. -/
theorem C4_captcha_block (env : ScrapeEnv) (st : DBState)
    (h : (get_case_list env.fullUrl env.searchLinks).falsy = true) :
    scrape_all_case_details env st
      = { st with logs :=
            st.logs ++ [⟨"Montgomery Probate", 0, false, "CAPTCHA block"⟩] } := by
  unfold scrape_all_case_details
  cases hg : get_case_list env.fullUrl env.searchLinks with
  | emptyDict => rfl
  | ok urls =>
    rw [hg] at h
    simp only [CaseListResult.falsy] at h
    simp only [h, if_true]
    rfl

def envC4 : ScrapeEnv := ⟨id, .error (), fun _ => .ok []⟩

theorem C4_witness :
    (get_case_list envC4.fullUrl envC4.searchLinks).falsy = true
    ∧ scrape_all_case_details envC4 stEmpty
        = { stEmpty with logs :=
              stEmpty.logs ++ [⟨"Montgomery Probate", 0, false, "CAPTCHA block"⟩] } :=
  ⟨rfl, C4_captcha_block envC4 stEmpty rfl⟩

/-! ## Claim C5 -/

/-- C5, counterexample: the foreclosure identifier extractor
(`scrape_case_ids`) performs no de-duplication — two OPEN rows carrying
the same case id yield a duplicated identifier list. -/
theorem C5_counterexample :
    scrape_case_ids [⟨true, false, "case_id=123"⟩, ⟨true, false, "case_id=123"⟩]
      = ["123", "123"]
    ∧ ¬ (scrape_case_ids
          [⟨true, false, "case_id=123"⟩, ⟨true, false, "case_id=123"⟩]).Nodup :=
  ⟨by decide, by decide⟩

/-- C5, amended: the probate `get_case_list` extraction is duplicate-free
in first-seen order — its output is a duplicate-free sublist of the
filtered link list with the same members, and de-duplication keeps the
first occurrence, discarding later ones. The foreclosure
`scrape_case_ids` offers no such guarantee. -/
theorem C5_amended_dedup (fullUrl : String → String) (links : List String) :
    (extractCaseUrls fullUrl links).Nodup
    ∧ (∀ x, x ∈ extractCaseUrls fullUrl links ↔
          x ∈ (links.filter (fun h => containsSub h resultUrlFragment)).map fullUrl)
    ∧ (extractCaseUrls fullUrl links).Sublist
        ((links.filter (fun h => containsSub h resultUrlFragment)).map fullUrl)
    ∧ (∀ (x : String) (xs : List String),
        dictFromKeys (x :: xs) = x :: dictFromKeys (xs.filter (fun y => y ≠ x))) :=
  ⟨dictFromKeys_nodup _, fun x => dictFromKeys_mem _ x,
   dictFromKeys_sublist _, dictFromKeys_cons⟩

/-! ## Claim C6 -/

theorem findIdxOH_eq_none (parts : List String) (h : "OH" ∉ parts) :
    findIdxOH parts = none := by
  induction parts with
  | nil => rfl
  | cons p ps ih =>
    have hp : ¬ (p == "OH") = true := by
      simp only [beq_iff_eq]
      intro hc
      exact h (hc ▸ List.mem_cons_self _ _)
    simp only [findIdxOH, if_neg hp,
      ih (fun hc => h (List.mem_cons_of_mem _ hc)), Option.map_none']

/-- C6, counterexample: on `"123 Main St, Dayton 45402"` — an address
whose city/state/zip segment lacks the two-letter state token — the
parser does not apply the last-three-token heuristic (the segment has
only two tokens): it stores the entire string as the street and leaves
city and zip empty, so the zip is not the trailing token `"45402"`. -/
theorem C6_counterexample :
    parseFiduciaryAddress "123 Main St, Dayton 45402"
      = ("123 Main St, Dayton 45402", "", "")
    ∧ (parseFiduciaryAddress "123 Main St, Dayton 45402").2.2 ≠ "45402" :=
  ⟨by decide, by decide⟩

/-- C6, amended: on `"123 Main St, Dayton OH 45402"` the parser yields
street `"123 Main St"`, city `"Dayton"`, zip `"45402"`; when the segment
lacks the state token the last-three-token heuristic (city the
third-from-last token, zip the last) applies only if the segment has at
least three tokens; with fewer, extraction is abandoned (the whole string
is stored as the street). The parser is a total function — it never
raises. -/
theorem C6_amended :
    parseFiduciaryAddress "123 Main St, Dayton OH 45402"
      = ("123 Main St", "Dayton", "45402")
    ∧ (∀ parts : List String, "OH" ∉ parts → 3 ≤ parts.length →
        parseCityStateZip parts
          = some (pyStrip ((parts.get? (parts.length - 3)).getD ""),
                  pyStrip (parts.getLast?.getD "")))
    ∧ (∀ parts : List String, "OH" ∉ parts → parts.length < 3 →
        parseCityStateZip parts = none) := by
  refine ⟨by decide, ?_, ?_⟩
  · intro parts h h3
    unfold parseCityStateZip
    rw [if_pos (by omega : parts.length ≥ 2)]
    simp only [findIdxOH_eq_none parts h]
    rw [if_pos (by omega : parts.length ≥ 3)]
  · intro parts h h3
    unfold parseCityStateZip
    by_cases h2 : parts.length ≥ 2
    · rw [if_pos h2]
      simp only [findIdxOH_eq_none parts h]
      rw [if_neg (by omega : ¬ parts.length ≥ 3)]
    · rw [if_neg h2]

theorem C6_witness :
    ("OH" ∉ ["Dayton", "Ohio", "45402"] ∧ 3 ≤ (["Dayton", "Ohio", "45402"] : List String).length)
    ∧ parseCityStateZip ["Dayton", "Ohio", "45402"] = some ("Dayton", "45402") := by
  refine ⟨⟨by decide, by decide⟩, ?_⟩
  rw [C6_amended.2.1 ["Dayton", "Ohio", "45402"] (by decide) (by decide)]
  decide

/-! ## Claim C10 -/

/-- C10: any exception during the search fetch/parse makes
`get_case_list` return the empty dict (not the declared list); the dict
is falsy, so the coordinator treats a discovery error exactly like an
empty url list — both take the CAPTCHA-block path. -/
theorem C10_exception_indistinguishable (fullUrl : String → String)
    (detail : String → Except Unit (List (List (List Cell)))) (st : DBState) :
    get_case_list fullUrl (.error ()) = .emptyDict
    ∧ CaseListResult.falsy .emptyDict = true
    ∧ scrape_all_case_details ⟨fullUrl, .error (), detail⟩ st
        = scrape_all_case_details ⟨fullUrl, .ok [], detail⟩ st :=
  ⟨rfl, rfl, rfl⟩

/-! ## Claim C3 -/

/-- C3, counterexample: a divorce `run_scraper` run whose token
acquisition fails — and likewise one that discovers zero cases — returns
with zero audit log entries written, not one. -/
theorem C3_counterexample :
    run_scraper ⟨true, "", [⟨"1"⟩]⟩ [] = []
    ∧ run_scraper ⟨true, "tok", []⟩ [] = [] :=
  ⟨rfl, rfl⟩

/-- C3, amended: the Montgomery probate coordinator
(`scrape_all_case_details`) writes exactly one audit entry per run in
every outcome class; the divorce `run_scraper` writes exactly one entry
only on runs that reach the persistence step, and writes zero entries
when table verification fails, when token acquisition fails, or when
discovery yields no cases. -/
theorem C3_amended (env : ScrapeEnv) (st : DBState)
    (denv : DivorceEnv) (logs : List LogEntry) :
    (scrape_all_case_details env st).logs.length = st.logs.length + 1
    ∧ (run_scraper denv logs).length
        = logs.length
          + (if denv.tableOk = true ∧ denv.token ≠ "" ∧ denv.scrapedCases ≠ []
             then 1 else 0) := by
  constructor
  · unfold scrape_all_case_details
    cases hg : get_case_list env.fullUrl env.searchLinks with
    | emptyDict => simp [addLog]
    | ok urls =>
      by_cases he : urls.isEmpty
      · simp [he, addLog]
      · simp only [he, Bool.false_eq_true, if_false]
        rcases hsr : saveResults st 0
            (urls.map fun u => get_case_details (env.detail u) u) with ⟨st', n, oe⟩
        have hlogs : st'.logs = st.logs := by
          have h := saveResults_fst_logs st 0
            (urls.map fun u => get_case_details (env.detail u) u)
          rw [hsr] at h
          exact h
        cases oe <;> simp [addLog, hlogs]
  · rcases denv with ⟨tok, token, cs⟩
    cases tok with
    | false => simp [run_scraper]
    | true =>
      by_cases ht : token = ""
      · subst ht
        simp [run_scraper]
      · rcases cs with _ | ⟨c0, cs'⟩
        · simp [run_scraper, ht]
        · simp [run_scraper, dv_save_to_database, ht]

/-! ## Claim C9 -/

theorem updateFirst_length (rows : List PersistedCase) (c : CaseDetails) :
    (updateFirst rows c).length = rows.length := by
  induction rows with
  | nil => rfl
  | cons r rs ih =>
    by_cases hm : (r.data.case_number == c.case_number) = true
    · simp [updateFirst, hm]
    · simp [updateFirst, hm, ih]

theorem updateFirst_nth (rows : List PersistedCase) (c : CaseDetails) (i : Nat) :
    ((updateFirst rows c).get? i).map (fun r => (r.id, r.created_at))
      = (rows.get? i).map (fun r => (r.id, r.created_at)) := by
  induction rows generalizing i with
  | nil => rfl
  | cons r rs ih =>
    by_cases hm : (r.data.case_number == c.case_number) = true
    · simp only [updateFirst, if_pos hm]
      cases i with
      | zero => rfl
      | succ j => rfl
    · simp only [updateFirst, if_neg hm]
      cases i with
      | zero => rfl
      | succ j => exact ih j

/-- C9: a successful `update_probate_case` on an existing natural key
rewrites only the Create-schema fields: the table length, the surrogate
id and creation timestamp of every row — in particular those of the updated
row — and the audit log are unchanged. -/
theorem C9_update_preserves_identity (st : DBState) (c : CaseDetails)
    (st' : DBState) (h : update_probate_case st c = .ok st') :
    st'.cases.length = st.cases.length
    ∧ (∀ i, (st'.cases.get? i).map (fun r => (r.id, r.created_at))
          = (st.cases.get? i).map (fun r => (r.id, r.created_at)))
    ∧ st'.logs = st.logs := by
  unfold update_probate_case at h
  by_cases hc : hasCaseNumber st.cases c.case_number = true
  · rw [if_pos hc] at h
    injection h with h
    subst h
    exact ⟨updateFirst_length st.cases c, fun i => updateFirst_nth st.cases c i, rfl⟩
  · rw [if_neg hc] at h
    exact absurd h (by simp)

def recA : CaseDetails :=
  { decedent_name := "A", filing_date := "2025-01-01", case_number := "K1",
    source_url := "u", county := "c" }

def recB : CaseDetails :=
  { recA with decedent_name := "B" }

def stC9 : DBState := ⟨[⟨7, 3, recA⟩], [], 8, 4⟩

theorem C9_witness :
    (⟨[⟨7, 3, recB⟩], [], 8, 4⟩ : DBState).cases.length = stC9.cases.length
    ∧ ((⟨[⟨7, 3, recB⟩], [], 8, 4⟩ : DBState).cases.get? 0).map
        (fun r => (r.id, r.created_at))
      = (stC9.cases.get? 0).map (fun r => (r.id, r.created_at)) :=
  ⟨(C9_update_preserves_identity stC9 recB _ rfl).1,
   (C9_update_preserves_identity stC9 recB _ rfl).2.1 0⟩

/-! ## Claim C8 -/

theorem pollLoop_count_le (poll : Nat → Except Unit PollStatus)
    (fuel attempt : Nat) : (pollLoop poll fuel attempt).2 ≤ fuel := by
  induction fuel generalizing attempt with
  | zero => exact Nat.le_refl 0
  | succ n ih =>
    simp only [pollLoop]
    cases poll attempt with
    | error e => simp
    | ok s =>
      cases s with
      | pending => simpa using Nat.succ_le_succ (ih (attempt + 1))
      | ready tok => simp
      | failed => simp

theorem pollLoop_result (poll : Nat → Except Unit PollStatus)
    (fuel attempt : Nat) :
    (pollLoop poll fuel attempt).1 = ""
    ∨ ∃ k, attempt ≤ k ∧ k < attempt + fuel
        ∧ poll k = .ok (.ready (pollLoop poll fuel attempt).1) := by
  induction fuel generalizing attempt with
  | zero => exact Or.inl rfl
  | succ n ih =>
    cases hp : poll attempt with
    | error e => simp [pollLoop, hp]
    | ok s =>
      cases s with
      | pending =>
        rcases ih (attempt + 1) with h | ⟨k, h1, h2, h3⟩
        · left
          simpa [pollLoop, hp] using h
        · right
          refine ⟨k, by omega, by omega, ?_⟩
          simpa [pollLoop, hp] using h3
      | ready tok =>
        right
        refine ⟨attempt, Nat.le_refl _, by omega, ?_⟩
        simp [pollLoop, hp]
      | failed => simp [pollLoop, hp]

theorem pollLoop_stops_at_failure (poll : Nat → Except Unit PollStatus)
    (fuel attempt k : Nat) (hak : attempt ≤ k) (hk : k < attempt + fuel)
    (hfail : poll k = .ok .failed)
    (hpend : ∀ j, attempt ≤ j → j < k → poll j = .ok .pending) :
    pollLoop poll fuel attempt = ("", k - attempt + 1) := by
  induction fuel generalizing attempt with
  | zero => omega
  | succ n ih =>
    by_cases hek : attempt = k
    · subst hek
      simp [pollLoop, hfail]
    · have hlt : attempt < k := by omega
      have hp := hpend attempt (Nat.le_refl _) hlt
      simp only [pollLoop, hp]
      rw [ih (attempt + 1) (by omega) (by omega)
        (fun j hj1 hj2 => hpend j (by omega) hj2)]
      have : k - (attempt + 1) + 1 + 1 = k - attempt + 1 := by omega
      simp [this]

/-- C8: token acquisition always terminates. The poll loop performs at
most `max_attempts` polls; the returned value is either "" (the failure
value) or the token of a poll that reported ready within the bound; and a
poll reporting failed ends the loop immediately — no further poll is made
in the run. -/
theorem C8_poll_bounded :
    (∀ (poll : Nat → Except Unit PollStatus) (fuel attempt : Nat),
        (pollLoop poll fuel attempt).2 ≤ fuel)
    ∧ (∀ (createTask : Except Unit (Option Nat))
         (poll : Nat → Except Unit PollStatus),
        get_recaptcha_token createTask poll = ""
        ∨ ∃ k, 1 ≤ k ∧ k ≤ max_attempts
            ∧ poll k = .ok (.ready (get_recaptcha_token createTask poll)))
    ∧ (∀ (poll : Nat → Except Unit PollStatus) (k : Nat),
        1 ≤ k → k ≤ max_attempts → poll k = .ok .failed →
        (∀ j, 1 ≤ j → j < k → poll j = .ok .pending) →
        pollLoop poll max_attempts 1 = ("", k)) := by
  refine ⟨pollLoop_count_le, ?_, ?_⟩
  · intro createTask poll
    match createTask with
    | .error e => exact Or.inl rfl
    | .ok none => exact Or.inl rfl
    | .ok (some tid) =>
      rcases pollLoop_result poll max_attempts 1 with h | ⟨k, h1, h2, h3⟩
      · exact Or.inl h
      · exact Or.inr ⟨k, h1, by revert h2; simp [max_attempts]; omega, h3⟩
  · intro poll k h1 h2 hfail hpend
    have h := pollLoop_stops_at_failure poll max_attempts 1 k h1
      (by revert h2; simp [max_attempts]; omega) hfail
      (fun j hj1 hj2 => hpend j hj1 hj2)
    rw [h]
    have : k - 1 + 1 = k := by omega
    rw [this]

def pollW : Nat → Except Unit PollStatus :=
  fun k => if k = 3 then .ok .failed else .ok .pending

theorem C8_witness :
    (pollLoop pollW 10 1).2 ≤ 10
    ∧ pollLoop pollW 10 1 = ("", 3) :=
  ⟨C8_poll_bounded.1 pollW 10 1,
   C8_poll_bounded.2.2 pollW 3 (by decide) (by decide) rfl
     (fun j hj1 hj2 => by
        have hj : j = 1 ∨ j = 2 := by omega
        rcases hj with rfl | rfl <;> rfl)⟩

/-! ## Claim C7 -/

theorem hasCaseNumber_insert (st : DBState) (d : CaseDetails) (cn : String) :
    hasCaseNumber (insertCase st d).cases cn
      = (hasCaseNumber st.cases cn || (d.case_number == cn)) := by
  simp [insertCase, hasCaseNumber, List.any_append]

theorem insertCase_dataList (st : DBState) (d : CaseDetails) :
    (insertCase st d).cases.map (fun r => r.data)
      = st.cases.map (fun r => r.data) ++ [d] := by
  simp [insertCase]

theorem saveResults_spec (st : DBState) (total : Nat)
    (results : List (Option CaseDetails))
    (hfresh : ∀ c ∈ results.filterMap id,
        hasCaseNumber st.cases c.case_number = false)
    (hnodup : ((results.filterMap id).map (fun c => c.case_number)).Nodup) :
    (saveResults st total results).1.cases.map (fun r => r.data)
        = st.cases.map (fun r => r.data) ++ results.filterMap id
    ∧ (saveResults st total results).2.1 = total + (results.filterMap id).length
    ∧ (saveResults st total results).2.2 = none := by
  induction results generalizing st total with
  | nil => exact ⟨by simp [saveResults], rfl, rfl⟩
  | cons r rest ih =>
    cases r with
    | none =>
      simp only [List.filterMap_cons, id] at hfresh hnodup ⊢
      exact ih st total hfresh hnodup
    | some d =>
      simp only [List.filterMap_cons, id] at hfresh hnodup ⊢
      have hd : hasCaseNumber st.cases d.case_number = false :=
        hfresh d (List.mem_cons_self _ _)
      rw [List.map_cons] at hnodup
      have hnodup' := (List.nodup_cons.mp hnodup).2
      have hdnot := (List.nodup_cons.mp hnodup).1
      have hfresh' : ∀ c ∈ rest.filterMap id,
          hasCaseNumber (insertCase st d).cases c.case_number = false := by
        intro c hc
        rw [hasCaseNumber_insert]
        have h1 : hasCaseNumber st.cases c.case_number = false :=
          hfresh c (List.mem_cons_of_mem _ hc)
        have h2 : (d.case_number == c.case_number) = false := by
          rw [beq_eq_false_iff_ne]
          intro he
          exact hdnot (by rw [he]; exact List.mem_map_of_mem _ hc)
        rw [h1, h2]
        rfl
      obtain ⟨e1, e2, e3⟩ := ih (insertCase st d) (total + 1) hfresh' hnodup'
      have hred : saveResults st total (some d :: rest)
          = saveResults (insertCase st d) (total + 1) rest := by
        simp only [saveResults, save_case_to_db, hd, Bool.false_eq_true, if_false]
      rw [hred]
      refine ⟨?_, ?_, e3⟩
      · rw [e1, insertCase_dataList, List.append_assoc]
        rfl
      · rw [e2]
        simp only [List.length_cons]
        omega

/-- C7: a per-case fetch/parse failure yields empty for that case only:
`get_case_details` maps a fetch exception to `none`; the coordinator
still persists every other valid record of the run (stated under
freshness of the extracted natural keys, so that the inserts commit) and
writes exactly one success audit entry counting the successful subset —
the exception never propagates out of `scrape_all_case_details`. -/
theorem C7_per_case_failure (env : ScrapeEnv) (st : DBState) (urls : List String)
    (hurls : get_case_list env.fullUrl env.searchLinks = .ok urls)
    (hne : urls.isEmpty = false)
    (hfresh : ∀ c ∈ (urls.map fun u => get_case_details (env.detail u) u).filterMap id,
        hasCaseNumber st.cases c.case_number = false)
    (hnodup : (((urls.map fun u => get_case_details (env.detail u) u).filterMap id).map
        (fun c => c.case_number)).Nodup) :
    (∀ u, env.detail u = .error () → get_case_details (env.detail u) u = none)
    ∧ (scrape_all_case_details env st).cases.map (fun r => r.data)
        = st.cases.map (fun r => r.data)
          ++ (urls.map fun u => get_case_details (env.detail u) u).filterMap id
    ∧ (scrape_all_case_details env st).logs
        = st.logs ++ [⟨"Montgomery Probate",
            ((urls.map fun u => get_case_details (env.detail u) u).filterMap id).length,
            true, ""⟩] := by
  obtain ⟨e1, e2, e3⟩ := saveResults_spec st 0
    (urls.map fun u => get_case_details (env.detail u) u) hfresh hnodup
  have hred : scrape_all_case_details env st
      = addLog (saveResults st 0 (urls.map fun u => get_case_details (env.detail u) u)).1
          ⟨"Montgomery Probate",
           (saveResults st 0 (urls.map fun u => get_case_details (env.detail u) u)).2.1,
           true, ""⟩ := by
    unfold scrape_all_case_details
    rw [hurls]
    simp only [hne, Bool.false_eq_true, if_false]
    rcases hsr : saveResults st 0 (urls.map fun u => get_case_details (env.detail u) u)
      with ⟨st', n, oe⟩
    rw [hsr] at e3
    simp only at e3
    subst e3
    rfl
  refine ⟨fun u h => by rw [h]; rfl, ?_, ?_⟩
  · rw [hred]
    exact e1
  · rw [hred]
    show (saveResults st 0 (urls.map fun u => get_case_details (env.detail u) u)).1.logs
        ++ _ = _
    rw [saveResults_fst_logs, e2, Nat.zero_add]

def pageW (cn : String) : List (List (List Cell)) :=
  [[[⟨"Decedent" ++ apos ++ "s Name:", none, none⟩, ⟨"JOHN DOE", none, none⟩],
    [⟨"Case Number:", none, none⟩, ⟨cn, none, none⟩],
    [⟨"Case Status:", none, none⟩, ⟨"OPEN 01-15-2025", none, none⟩]]]

def urlsC7 : List String :=
  ["casesearchresultx.cfm?1", "casesearchresultx.cfm?2", "casesearchresultx.cfm?3",
   "casesearchresultx.cfm?4", "casesearchresultx.cfm?5"]

def envC7 : ScrapeEnv :=
  ⟨id, .ok urlsC7,
   fun u => if u = "casesearchresultx.cfm?3" then .error () else .ok (pageW u)⟩

theorem C7_witness :
    get_case_details (envC7.detail "casesearchresultx.cfm?3")
        "casesearchresultx.cfm?3" = none
    ∧ (scrape_all_case_details envC7 stEmpty).cases.length = 4
    ∧ (scrape_all_case_details envC7 stEmpty).logs
        = [⟨"Montgomery Probate", 4, true, ""⟩] := by
  have h := C7_per_case_failure envC7 stEmpty urlsC7 rfl rfl
    (fun c _ => rfl) (by decide)
  refine ⟨h.1 "casesearchresultx.cfm?3" rfl, ?_, ?_⟩
  · have hlen := congrArg List.length h.2.1
    simp only [List.length_map, List.length_append] at hlen
    rw [hlen]
    decide
  · rw [h.2.2]
    decide

/-! ## Claim C1 -/

theorem updateFirst_keys (rows : List PersistedCase) (c : CaseDetails) :
    caseKeys (updateFirst rows c) = caseKeys rows := by
  induction rows with
  | nil => rfl
  | cons r rs ih =>
    by_cases hm : (r.data.case_number == c.case_number) = true
    · have he : r.data.case_number = c.case_number := eq_of_beq hm
      simp [updateFirst, hm, caseKeys, he]
    · simp only [updateFirst, if_neg hm]
      simp only [caseKeys, List.map_cons] at ih ⊢
      rw [ih]

theorem update_ok_of_exists (st : DBState) (c : CaseDetails)
    (h : case_exists st c.case_number = true) :
    update_probate_case st c = .ok { st with cases := updateFirst st.cases c } := by
  unfold update_probate_case
  rw [if_pos (show hasCaseNumber st.cases c.case_number = true from h)]

theorem case_exists_updateFirst (st : DBState) (c : CaseDetails) (cn : String) :
    case_exists { st with cases := updateFirst st.cases c } cn
      = case_exists st cn := by
  show hasCaseNumber (updateFirst st.cases c) cn = hasCaseNumber st.cases cn
  by_cases h : hasCaseNumber st.cases cn = true
  · rw [h, (hasCaseNumber_iff _ _).mpr]
    rw [updateFirst_keys]
    exact (hasCaseNumber_iff _ _).mp h
  · have h1 : hasCaseNumber st.cases cn = false := by
      cases hx : hasCaseNumber st.cases cn
      · rfl
      · exact absurd hx h
    rw [h1]
    cases hx : hasCaseNumber (updateFirst st.cases c) cn
    · rfl
    · exfalso
      apply h
      rw [(hasCaseNumber_iff _ _).mpr]
      have := (hasCaseNumber_iff _ _).mp hx
      rw [updateFirst_keys] at this
      exact this

theorem processCases_mono (recs : List CaseDetails) (st : DBState) (cn : String)
    (h : case_exists st cn = true) :
    case_exists (processCases st recs).1 cn = true := by
  induction recs generalizing st with
  | nil => exact h
  | cons c cs ih =>
    by_cases hex : case_exists st c.case_number = true
    · simp only [processCases, hex, if_true, update_ok_of_exists st c hex]
      exact ih _ (by rw [case_exists_updateFirst]; exact h)
    · simp only [processCases, hex, Bool.false_eq_true, if_false]
      apply ih
      show hasCaseNumber (insertCase st c).cases cn = true
      rw [hasCaseNumber_insert,
        show hasCaseNumber st.cases cn = true from h]
      rfl

theorem processCases_establishes (recs : List CaseDetails) (st : DBState) :
    ∀ c ∈ recs, case_exists (processCases st recs).1 c.case_number = true := by
  induction recs generalizing st with
  | nil => intro c hc; cases hc
  | cons c cs ih =>
    intro x hx
    by_cases hex : case_exists st c.case_number = true
    · simp only [processCases, hex, if_true, update_ok_of_exists st c hex]
      rcases List.mem_cons.mp hx with rfl | hx
      · exact processCases_mono cs _ _
          (by rw [case_exists_updateFirst]; exact hex)
      · exact ih _ x hx
    · simp only [processCases, hex, Bool.false_eq_true, if_false]
      rcases List.mem_cons.mp hx with rfl | hx
      · apply processCases_mono
        show hasCaseNumber (insertCase st x).cases x.case_number = true
        rw [hasCaseNumber_insert]
        simp
      · exact ih _ x hx

theorem processCases_second (recs : List CaseDetails) (st : DBState)
    (h : ∀ c ∈ recs, case_exists st c.case_number = true) :
    (processCases st recs).2.1 = 0
    ∧ (processCases st recs).2.2 = recs.length
    ∧ caseKeys (processCases st recs).1.cases = caseKeys st.cases
    ∧ (processCases st recs).1.cases.length = st.cases.length := by
  induction recs generalizing st with
  | nil => exact ⟨rfl, rfl, rfl, rfl⟩
  | cons c cs ih =>
    have hex : case_exists st c.case_number = true := h c (List.mem_cons_self _ _)
    have h' : ∀ x ∈ cs, case_exists { st with cases := updateFirst st.cases c }
        x.case_number = true := by
      intro x hx
      rw [case_exists_updateFirst]
      exact h x (List.mem_cons_of_mem _ hx)
    obtain ⟨e1, e2, e3, e4⟩ := ih { st with cases := updateFirst st.cases c } h'
    simp only [processCases, hex, if_true, update_ok_of_exists st c hex]
    refine ⟨e1, by rw [List.length_cons]; simpa using e2, ?_, ?_⟩
    · rw [e3]
      exact updateFirst_keys st.cases c
    · rw [e4]
      exact updateFirst_length st.cases c

theorem processCases_nodupKeys (recs : List CaseDetails) (st : DBState)
    (h : (caseKeys st.cases).Nodup) :
    (caseKeys (processCases st recs).1.cases).Nodup := by
  induction recs generalizing st with
  | nil => exact h
  | cons c cs ih =>
    by_cases hex : case_exists st c.case_number = true
    · simp only [processCases, hex, if_true, update_ok_of_exists st c hex]
      apply ih
      show (caseKeys (updateFirst st.cases c)).Nodup
      rw [updateFirst_keys]
      exact h
    · simp only [processCases, hex, Bool.false_eq_true, if_false]
      apply ih
      show (caseKeys (st.cases ++ [⟨st.nextId, st.clock, c⟩])).Nodup
      have hnot : c.case_number ∉ caseKeys st.cases := by
        intro hc
        exact hex ((hasCaseNumber_iff _ _).mpr hc)
      simp only [caseKeys, List.map_append, List.map_cons, List.map_nil]
      rw [List.nodup_append]
      refine ⟨h, List.nodup_singleton _, ?_⟩
      intro a ha hb
      rcases List.mem_singleton.mp hb with rfl
      exact hnot ha

/-- C1, amended: in the endpoint pipeline (`scrape_probate_cases`) the
existence check by case_number precedes every create and existing keys
are updated, so re-running the per-case persistence loop over the same
records yields zero new rows (every record counts as updated), an
unchanged table, and no duplicate case_numbers when there were none.
`MontgomeryProbateCaseScraper.save_case_to_db`, by contrast, performs no
existence check: re-running `scrape_all_case_details` over identical
input aborts with a unique-constraint error instead of updating or
skipping (see the counterexample); the constraint still prevents
duplicate rows. -/
theorem C1_amended_idempotent (recs : List CaseDetails) (st : DBState) :
    (processCases (processCases st recs).1 recs).2.1 = 0
    ∧ (processCases (processCases st recs).1 recs).2.2 = recs.length
    ∧ (processCases (processCases st recs).1 recs).1.cases.length
        = (processCases st recs).1.cases.length
    ∧ ((caseKeys st.cases).Nodup →
        (caseKeys (processCases (processCases st recs).1 recs).1.cases).Nodup) := by
  obtain ⟨e1, e2, _, e4⟩ :=
    processCases_second recs (processCases st recs).1 (processCases_establishes recs st)
  exact ⟨e1, e2, e4,
    fun hn => processCases_nodupKeys recs _ (processCases_nodupKeys recs st hn)⟩

def envC1 : ScrapeEnv :=
  ⟨id, .ok ["casesearchresultx.cfm?1"], fun u => .ok (pageW u)⟩

def recC1 : CaseDetails :=
  { decedent_name := "JOHN DOE", filing_date := "2025-01-15",
    case_number := "casesearchresultx.cfm?1",
    source_url := "casesearchresultx.cfm?1",
    county := "Montgomery County, Ohio", case_status := "OPEN" }

/-- C1, counterexample: `save_case_to_db` performs no existence check. On
the second run of `scrape_all_case_details` over identical input, the
already-persisted record is neither updated nor skipped: the insert is
attempted, violates the unique constraint, and the run ends with a
failure log entry (the table stays at one row, so no duplicate is ever
persisted — but not by the claimed check-before-create discipline). -/
theorem C1_counterexample :
    (scrape_all_case_details envC1 stEmpty).cases.length = 1
    ∧ get_case_details (envC1.detail "casesearchresultx.cfm?1")
        "casesearchresultx.cfm?1" = some recC1
    ∧ save_case_to_db (scrape_all_case_details envC1 stEmpty) recC1
        = .error "UNIQUE constraint failed: montgomery_probate_cases.case_number"
    ∧ (scrape_all_case_details envC1 (scrape_all_case_details envC1 stEmpty)).cases.length
        = 1
    ∧ (scrape_all_case_details envC1 (scrape_all_case_details envC1 stEmpty)).logs.getLast?
        = some ⟨"Montgomery Probate", 0, false,
            "UNIQUE constraint failed: montgomery_probate_cases.case_number"⟩ := by
  refine ⟨by decide, by decide, rfl, by decide, by decide⟩

def recsC1 : List CaseDetails := [recC1]

theorem C1_witness :
    (processCases (processCases stEmpty recsC1).1 recsC1).2.1 = 0
    ∧ (processCases (processCases stEmpty recsC1).1 recsC1).2.2 = recsC1.length
    ∧ (caseKeys (processCases (processCases stEmpty recsC1).1 recsC1).1.cases).Nodup :=
  ⟨(C1_amended_idempotent recsC1 stEmpty).1,
   (C1_amended_idempotent recsC1 stEmpty).2.1,
   (C1_amended_idempotent recsC1 stEmpty).2.2.2 (by decide)⟩

end MontgomeryScraper
